import Mathlib

/-!
Wastemeter demo — shallow embedding and verification.

A shallow embedding of the core simulation logic of
`src/WastemeterDemo.jsx` (pattern catalog, simulated stream generator,
session accumulator, severity classifier, escalation detector, session
log, feedback gating), together with theorems settling the spec claims.

JavaScript numbers that only ever hold small non-negative integers are
modelled as `Nat`; the dwell counter is modelled as `Int` because the
source compares it with `<= 0`; the `Math.random()` draws are modelled
as explicit rational parameters.
-/

namespace Wastemeter

/-- A catalog entry: `{ key, label, waste }` from `DEFAULT_CONFIG.patterns`. -/
structure Pattern where
  key : String
  label : String
  waste : Bool
deriving Repr, DecidableEq

/-- `DEFAULT_CONFIG.patterns` (WastemeterDemo.jsx lines 43-53). -/
def defaultPatterns : List Pattern :=
  [ ⟨"FOCUSED", "Focused", false⟩,
    ⟨"SOCIALIZING", "Socializing", true⟩,
    ⟨"IDLING", "Idling", true⟩,
    ⟨"NON_LEARNING_CONTENT", "Non-learning Content", true⟩,
    ⟨"AWAY_FROM_SEAT", "Away from Seat", true⟩,
    ⟨"EATING", "Eating", true⟩,
    ⟨"RUSHING", "Rushing", false⟩,
    ⟨"SKIPPING_RECOMMENDED_LESSON", "Skipping Lesson", false⟩,
    ⟨"CHEATING", "Cheating", true⟩ ]

/-- `DEFAULT_CONFIG.thresholds` shape: `{ warn, high, critical }` seconds. -/
structure Thresholds where
  warn : Nat
  high : Nat
  critical : Nat
deriving Repr, DecidableEq

/-- `DEFAULT_CONFIG.thresholds = { warn: 10, high: 25, critical: 45 }`. -/
def defaultThresholds : Thresholds := ⟨10, 25, 45⟩

/-- The five severity strings used by the component. -/
inductive Severity where
  | ok
  | mild
  | warn
  | high
  | critical
deriving Repr, DecidableEq

/-- `getSeverity(secondsInPattern, thresholds, isWaste)`
(WastemeterDemo.jsx lines 167-173). -/
def getSeverity (secondsInPattern : Nat) (thresholds : Thresholds)
    (isWaste : Bool) : Severity :=
  if !isWaste then .ok
  else if secondsInPattern ≥ thresholds.critical then .critical
  else if secondsInPattern ≥ thresholds.high then .high
  else if secondsInPattern ≥ thresholds.warn then .warn
  else .mild

/-- `order.indexOf(sever)` for `order = ["mild","warn","high","critical"]`
(WastemeterDemo.jsx lines 296-298); JavaScript `indexOf` returns `-1`
on a miss, which is how `ok` is ranked below `mild`. -/
def ladderIdx : Severity → Int
  | .ok => -1
  | .mild => 0
  | .warn => 1
  | .high => 2
  | .critical => 3

/-- The intensity parameters passed to the feedback sink on an
escalation edge: `ping(700 + idx*100, 100)` and `vibrate(25 + idx*10)`
(WastemeterDemo.jsx lines 300-301). -/
structure FeedbackEvent where
  freq : Int
  toneMs : Int
  vibrateMs : Int
deriving Repr, DecidableEq

/-- One run of the escalation effect (WastemeterDemo.jsx lines 293-305)
for a tick: given the snooze / running gates, the waste flag and
severity of the current sample, and the remembered `lastSever.current`,
return the new remembered severity and the emitted event, if any. -/
def escalationStep (snoozed running waste : Bool) (sever : Severity)
    (lastSever : Severity) : Severity × Option FeedbackEvent :=
  if snoozed || !running then (lastSever, none)
  else
    let prevIdx := ladderIdx lastSever
    let idx := ladderIdx sever
    let ev : Option FeedbackEvent :=
      if waste && idx > prevIdx then
        some ⟨700 + idx * 100, 100, 25 + idx * 10⟩
      else none
    (sever, ev)

/-- The per-tick inputs the escalation effect reads. -/
structure TickInput where
  snoozed : Bool
  running : Bool
  waste : Bool
  sever : Severity
deriving Repr, DecidableEq

/-- Run `escalationStep` over a sequence of ticks in order, collecting
the emitted events. -/
def escalationRun (lastSever : Severity) :
    List TickInput → Severity × List FeedbackEvent
  | [] => (lastSever, [])
  | tk :: rest =>
    let step := escalationStep tk.snoozed tk.running tk.waste tk.sever lastSever
    let tail := escalationRun step.1 rest
    (tail.1, step.2.toList ++ tail.2)

/-- A waste-pattern tick that is neither snoozed nor paused. -/
def activeWasteTick (sever : Severity) : TickInput :=
  ⟨false, true, true, sever⟩

/-- An entry of the weighted selection pool: `{ key, w }`. -/
structure WeightedEntry where
  key : String
  w : ℚ
deriving Repr, DecidableEq

/-- `weightedPool` (WastemeterDemo.jsx lines 91-105). -/
def weightedPool : List WeightedEntry :=
  [ ⟨"FOCUSED", 36⟩,
    ⟨"SOCIALIZING", 8⟩,
    ⟨"IDLING", 10⟩,
    ⟨"NON_LEARNING_CONTENT", 10⟩,
    ⟨"AWAY_FROM_SEAT", 4⟩,
    ⟨"EATING", 4⟩,
    ⟨"RUSHING", 6⟩,
    ⟨"SKIPPING_RECOMMENDED_LESSON", 4⟩,
    ⟨"CHEATING", 2⟩ ]

/-- `weightedPool.reduce((s, p) => s + p.w, 0)` — the sum of pool
weights (WastemeterDemo.jsx line 108). -/
def totalWeight (pool : List WeightedEntry) : ℚ :=
  (pool.map (fun e => e.w)).sum

/-- `weightedPool.find((p) => (r -= p.w) < 0)?.key`
(WastemeterDemo.jsx line 110): subtract weights from `r` in table
order and return the key of the first entry whose subtraction makes
the running value negative, or nothing if none does. -/
def findWeighted (r : ℚ) : List WeightedEntry → Option String
  | [] => none
  | e :: rest => if r - e.w < 0 then some e.key else findWeighted (r - e.w) rest

/-- `DEFAULT_CONFIG.patterns.find((p) => p.key === chosenKey) ||
DEFAULT_CONFIG.patterns[0]` (WastemeterDemo.jsx line 111): catalog
lookup with fallback to the first catalog entry. -/
def lookupPattern (key : String) : Pattern :=
  (defaultPatterns.find? (fun p => p.key == key)).getD
    (defaultPatterns.get ⟨0, by decide⟩)

/-- `pickPattern` (WastemeterDemo.jsx lines 107-112) applied to the
random draw `r = Math.random() * total`: the weighted draw with the
JavaScript `|| "FOCUSED"` fallback, then the catalog lookup with its
own fallback. -/
def pickPattern (r : ℚ) : Pattern :=
  lookupPattern ((findWeighted r weightedPool).getD "FOCUSED")

/-- `Math.round` on the non-negative arguments the source feeds it:
round half up, i.e. the floor of `q + 1/2`. -/
def jsRound (q : ℚ) : Int := ⌊q + 1 / 2⌋

/-- The dwell computed on pattern selection (WastemeterDemo.jsx lines
122-123): `base = 6` for FOCUSED else `10`, then
`Math.max(2, Math.round(base + Math.random() * base))`. -/
def newDwell (isFocused : Bool) (r : ℚ) : Int :=
  let base : ℚ := if isFocused then 6 else 10
  max 2 (jsRound (base + r * base))

/-- The state carried by `useSimulatedAIStream`: the `useState` record
plus the `dwellLeftRef` ref (WastemeterDemo.jsx lines 82-88). -/
structure StreamState where
  pattern : Pattern
  secondsInPattern : Nat
  sessionSec : Nat
  wastedSec : Nat
  dwellLeft : Int
deriving Repr, DecidableEq

/-- The initial mount state: pattern `FOCUSED` (`config.patterns[0]`),
all counters zero, and a zero dwell budget (`useRef(0)`). -/
def initStreamState : StreamState :=
  { pattern := defaultPatterns.get ⟨0, by decide⟩
    secondsInPattern := 0
    sessionSec := 0
    wastedSec := 0
    dwellLeft := 0 }

/-- One tick of the simulated stream (WastemeterDemo.jsx lines
116-133), with the two `Math.random()` draws passed explicitly:
`r1` is the scaled draw used by `pickPattern` and `r2 ∈ [0,1)` the
draw used for the dwell. If the dwell budget is exhausted the tick
reselects a pattern, computes a fresh dwell and resets
seconds-in-pattern to 0; then the dwell budget is decremented
(floored at 0) and the counters are incremented. -/
def streamTick (s : StreamState) (r1 r2 : ℚ) : StreamState :=
  let sel : Pattern × Nat × Int :=
    if s.dwellLeft ≤ 0 then
      let p := pickPattern r1
      (p, 0, newDwell (p.key == "FOCUSED") r2)
    else
      (s.pattern, s.secondsInPattern, s.dwellLeft)
  { pattern := sel.1
    secondsInPattern := sel.2.1 + 1
    sessionSec := s.sessionSec + 1
    wastedSec := s.wastedSec + (if sel.1.waste then 1 else 0)
    dwellLeft := max 0 (sel.2.2 - 1) }

/-- Run the stream over a list of random draw pairs, in order. -/
def streamRun (s : StreamState) : List (ℚ × ℚ) → StreamState
  | [] => s
  | r :: rest => streamRun (streamTick s r.1 r.2) rest

/-- One record of the rolling log (WastemeterDemo.jsx lines 310-316). -/
structure LogEntry where
  t : String
  patternKey : String
  secs : Nat
  wasted : Bool
  totalWaste : Nat
deriving Repr, DecidableEq

/-- One log update (WastemeterDemo.jsx line 317):
`[entry, ...L].slice(0, 40)` — prepend and truncate to 40. The update
never inspects the entries, so it is stated for an arbitrary entry
type. -/
def logStep {α : Type} (entry : α) (L : List α) : List α :=
  (entry :: L).take 40

/-- Apply the log update for a chronological sequence of entries. -/
def logRun {α : Type} (L : List α) : List α → List α
  | [] => L
  | e :: rest => logRun (logStep e L) rest

/-- Modelled from the spec: no `reset()` operation appears in the
source under src — the spec (section 6) lists `reset()` among the
session controls as "clears all accumulators and log, reseeds
generator to initial state". Modelled as returning the stream state
to the component's initial mount state together with an empty log. -/
def reset : StreamState × List LogEntry := (initStreamState, [])

/-- The tone capability built by `useFeedback`
(WastemeterDemo.jsx lines 221-241): when muted, the closure returns
before creating any audio; otherwise a tone with the given frequency
and duration is produced. The Web Audio plumbing is out of scope — the
model records whether a tone is produced and with which parameters. -/
def ping (muted : Bool) (freq durMs : Int) : Option (Int × Int) :=
  if muted then none else some (freq, durMs)

/-- The haptics capability (WastemeterDemo.jsx lines 244-253): gated
only by the reduced-motion preference; otherwise it vibrates for the
given duration. -/
def vibrate (reducedMotion : Bool) (ms : Int) : Option Int :=
  if reducedMotion then none else some ms

/-- The two calls made on an escalation edge with ladder index `idx`
(WastemeterDemo.jsx lines 300-301): `ping(700 + idx*100, 100)` and
`vibrate(25 + idx*10)`. Returns the produced audio and haptic
outputs. -/
def emitFeedback (muted reducedMotion : Bool) (idx : Int) :
    Option (Int × Int) × Option Int :=
  (ping muted (700 + idx * 100) 100, vibrate reducedMotion (25 + idx * 10))

end Wastemeter

namespace Wastemeter

/-- C2: the severity classifier returns `ok` exactly when the pattern is
not a waste pattern; for a waste pattern it walks the thresholds
`critical`, `high`, `warn` in order and falls through to `mild`, never
returning `ok`; at the default thresholds `{10, 25, 45}` the seconds
values `0, 10, 25, 45` classify to `mild, warn, high, critical`. -/
theorem getSeverity_spec :
    (∀ s t, getSeverity s t false = .ok) ∧
    (∀ s t, s ≥ t.critical → getSeverity s t true = .critical) ∧
    (∀ s t, s < t.critical → s ≥ t.high → getSeverity s t true = .high) ∧
    (∀ s t, s < t.critical → s < t.high → s ≥ t.warn →
      getSeverity s t true = .warn) ∧
    (∀ s t, s < t.critical → s < t.high → s < t.warn →
      getSeverity s t true = .mild) ∧
    (∀ s t, getSeverity s t true ≠ .ok) ∧
    getSeverity 0 defaultThresholds true = .mild ∧
    getSeverity 10 defaultThresholds true = .warn ∧
    getSeverity 25 defaultThresholds true = .high ∧
    getSeverity 45 defaultThresholds true = .critical := by
  refine ⟨fun s t => rfl, ?_, ?_, ?_, ?_, ?_, by decide, by decide, by decide, by decide⟩
  · intro s t h
    simp [getSeverity, h]
  · intro s t hc hh
    simp [getSeverity, hh, Nat.not_le.mpr hc]
  · intro s t hc hh hw
    simp [getSeverity, hw, Nat.not_le.mpr hc, Nat.not_le.mpr hh]
  · intro s t hc hh hw
    simp [getSeverity, Nat.not_le.mpr hc, Nat.not_le.mpr hh, Nat.not_le.mpr hw]
  · intro s t
    by_cases hc : s ≥ t.critical
    · simp [getSeverity, hc]
    · by_cases hh : s ≥ t.high
      · simp [getSeverity, hc, hh]
      · by_cases hw : s ≥ t.warn <;> simp [getSeverity, hc, hh, hw]

/-- A snoozed tick is a no-op for the escalation effect. -/
theorem escalationStep_snoozed (running w : Bool) (sever lastSever : Severity) :
    escalationStep true running w sever lastSever = (lastSever, none) := by
  simp [escalationStep]

/-- Auxiliary: running the escalation effect over ticks that are all
snoozed emits nothing and leaves the remembered severity untouched. -/
theorem escalationRun_snoozed_aux (ticks : List TickInput) (st : Severity)
    (h : ∀ tk ∈ ticks, tk.snoozed = true) :
    escalationRun st ticks = (st, []) := by
  induction ticks generalizing st with
  | nil => rfl
  | cons tk rest ih =>
    have hs : tk.snoozed = true := h tk (List.mem_cons_self tk rest)
    have ih2 := ih st (fun t ht => h t (List.mem_cons_of_mem tk ht))
    simp [escalationRun, hs, escalationStep_snoozed, ih2]

/-- C1: on a non-snoozed, running tick of a waste pattern the
escalation effect emits a feedback event exactly when the ladder rank
of the current severity strictly exceeds the rank of the remembered
severity; the remembered severity is always overwritten with the
current one on such ticks (also on flat and downward moves and for
non-waste patterns); and the severity sequence
`[mild, mild, warn, warn, high, mild, high]` emits exactly 3 events. -/
theorem escalation_edge_triggered :
    (∀ sever lastSever,
      ((escalationStep false true true sever lastSever).2.isSome = true ↔
        ladderIdx lastSever < ladderIdx sever)) ∧
    (∀ w sever lastSever,
      (escalationStep false true w sever lastSever).1 = sever) ∧
    (escalationRun .mild
      ([.mild, .mild, .warn, .warn, .high, .mild, .high].map
        activeWasteTick)).2.length = 3 := by
  refine ⟨?_, ?_, by decide⟩
  · intro sever lastSever
    cases sever <;> cases lastSever <;> decide
  · intro w sever lastSever
    cases w <;> rfl

/-- C3: while snoozed (for any running flag) or paused the escalation
effect emits nothing and does not update the remembered severity —
over a whole sequence of snoozed ticks no event is emitted and the
memory is unchanged — and a subsequent active waste tick whose ladder
rank strictly exceeds the remembered (pre-snooze) severity emits
exactly one event. -/
theorem escalation_snooze_pause_gating :
    (∀ running w sever lastSever,
      escalationStep true running w sever lastSever = (lastSever, none)) ∧
    (∀ w sever lastSever,
      escalationStep false false w sever lastSever = (lastSever, none)) ∧
    (∀ ticks lastSever, (∀ tk ∈ ticks, tk.snoozed = true) →
      escalationRun lastSever ticks = (lastSever, [])) ∧
    (∀ lastSever sever, ladderIdx lastSever < ladderIdx sever →
      ((escalationStep false true true sever lastSever).2.toList.length = 1)) := by
  refine ⟨?_, ?_, ?_, ?_⟩
  · intro running w sever lastSever
    simp [escalationStep]
  · intro w sever lastSever
    simp [escalationStep]
  · intro ticks lastSever h
    exact escalationRun_snoozed_aux ticks lastSever h
  · intro lastSever sever h
    cases lastSever <;> cases sever <;> simp_all [escalationStep, ladderIdx]

/-- Witness for `escalation_snooze_pause_gating`: a concrete snoozed
sequence keeps the memory at `mild` and emits nothing, and the first
active tick at `high` afterwards emits exactly one event. -/
theorem escalation_snooze_pause_gating_witness :
    escalationRun .mild
      [⟨true, true, true, .critical⟩, ⟨true, false, true, .high⟩] = (.mild, []) ∧
    (escalationStep false true true .high .mild).2.toList.length = 1 :=
  ⟨escalation_snooze_pause_gating.2.2.1
      [⟨true, true, true, .critical⟩, ⟨true, false, true, .high⟩] .mild
      (by decide),
   escalation_snooze_pause_gating.2.2.2 .mild .high (by decide)⟩

/-- Witness for `getSeverity_spec` at concrete inputs. -/
theorem getSeverity_spec_witness :
    getSeverity 45 defaultThresholds true = .critical ∧
    getSeverity 30 defaultThresholds true = .high ∧
    getSeverity 12 defaultThresholds true = .warn ∧
    getSeverity 5 defaultThresholds true = .mild :=
  ⟨getSeverity_spec.2.1 45 defaultThresholds (by decide),
   getSeverity_spec.2.2.1 30 defaultThresholds (by decide) (by decide),
   getSeverity_spec.2.2.2.1 12 defaultThresholds (by decide) (by decide) (by decide),
   getSeverity_spec.2.2.2.2.1 5 defaultThresholds (by decide) (by decide) (by decide)⟩

/-- One tick preserves `wastedSec ≤ sessionSec`. -/
theorem streamTick_wasted_le (s : StreamState) (r1 r2 : ℚ)
    (h : s.wastedSec ≤ s.sessionSec) :
    (streamTick s r1 r2).wastedSec ≤ (streamTick s r1 r2).sessionSec := by
  have h1 : (streamTick s r1 r2).sessionSec = s.sessionSec + 1 := rfl
  have h2 : (streamTick s r1 r2).wastedSec =
      s.wastedSec + (if (streamTick s r1 r2).pattern.waste then 1 else 0) := rfl
  rw [h1, h2]
  split <;> omega

/-- Auxiliary: the waste-bounded-by-session invariant is preserved by
any run of the stream. -/
theorem streamRun_wasted_le_aux (rs : List (ℚ × ℚ)) (s : StreamState)
    (h : s.wastedSec ≤ s.sessionSec) :
    (streamRun s rs).wastedSec ≤ (streamRun s rs).sessionSec := by
  induction rs generalizing s with
  | nil => exact h
  | cons r rest ih => exact ih (streamTick s r.1 r.2) (streamTick_wasted_le s r.1 r.2 h)

/-- C4: every tick increments `sessionSec` by exactly 1 and
`wastedSec` by exactly 1 iff the tick's current pattern is a waste
pattern; both counters are monotone along a tick; and starting from
the initial state, `wastedSec ≤ sessionSec` holds after any run. -/
theorem session_accumulator_spec :
    (∀ s r1 r2, (streamTick s r1 r2).sessionSec = s.sessionSec + 1) ∧
    (∀ s r1 r2, (streamTick s r1 r2).wastedSec =
      s.wastedSec + (if (streamTick s r1 r2).pattern.waste then 1 else 0)) ∧
    (∀ s r1 r2, s.sessionSec ≤ (streamTick s r1 r2).sessionSec ∧
      s.wastedSec ≤ (streamTick s r1 r2).wastedSec) ∧
    initStreamState.sessionSec = 0 ∧ initStreamState.wastedSec = 0 ∧
    (∀ rs, (streamRun initStreamState rs).wastedSec ≤
      (streamRun initStreamState rs).sessionSec) := by
  refine ⟨fun s r1 r2 => rfl, fun s r1 r2 => rfl, ?_, rfl, rfl, ?_⟩
  · intro s r1 r2
    have h2 : (streamTick s r1 r2).wastedSec =
        s.wastedSec + (if (streamTick s r1 r2).pattern.waste then 1 else 0) := rfl
    constructor
    · exact Nat.le_succ s.sessionSec
    · rw [h2]; exact Nat.le_add_right _ _
  · intro rs
    exact streamRun_wasted_le_aux rs initStreamState (le_refl 0)

/-- C5: the dwell computed on pattern selection is
`max 2 (round(base + r·base))` with base 6 for the focused pattern and
10 otherwise, hence always ≥ 2; the very first tick starts with an
exhausted dwell budget; and any tick whose dwell budget is ≤ 0
reselects a pattern, resets seconds-in-pattern to 0 before
incrementing it, and installs the fresh dwell (minus the immediate
decrement). -/
theorem dwell_and_reselection :
    (∀ foc r, 2 ≤ newDwell foc r) ∧
    (∀ r, newDwell true r = max 2 (jsRound (6 + r * 6)) ∧
      newDwell false r = max 2 (jsRound (10 + r * 10))) ∧
    initStreamState.dwellLeft ≤ 0 ∧
    (∀ s r1 r2, s.dwellLeft ≤ 0 →
      (streamTick s r1 r2).pattern = pickPattern r1 ∧
      (streamTick s r1 r2).secondsInPattern = 1 ∧
      (streamTick s r1 r2).dwellLeft =
        newDwell ((pickPattern r1).key == "FOCUSED") r2 - 1) := by
  refine ⟨?_, fun r => ⟨rfl, rfl⟩, by decide, ?_⟩
  · intro foc r
    exact le_max_left 2 _
  · intro s r1 r2 h
    have hd : 2 ≤ newDwell ((pickPattern r1).key == "FOCUSED") r2 := le_max_left 2 _
    refine ⟨?_, ?_, ?_⟩
    · simp [streamTick, h]
    · simp [streamTick, h]
    · simp only [streamTick, if_pos h]
      omega

/-- Witness for `dwell_and_reselection`: the very first tick, with
concrete draws, reselects and resets seconds-in-pattern. -/
theorem dwell_and_reselection_witness :
    initStreamState.dwellLeft ≤ 0 ∧
    ((streamTick initStreamState 50 (1 / 2)).pattern = pickPattern 50 ∧
      (streamTick initStreamState 50 (1 / 2)).secondsInPattern = 1 ∧
      (streamTick initStreamState 50 (1 / 2)).dwellLeft =
        newDwell ((pickPattern 50).key == "FOCUSED") (1 / 2) - 1) :=
  ⟨by decide, dwell_and_reselection.2.2.2 initStreamState 50 (1 / 2) (by decide)⟩

/-- C7: for every pool of strictly positive weights and every draw
`r ∈ [0, totalWeight)`, the subtract-in-table-order selection finds an
entry — the fallback branch is unreachable — and on the concrete pool
the total weight is 84. -/
theorem weighted_selection_total :
    totalWeight weightedPool = 84 ∧
    (∀ pool r, (∀ e ∈ pool, 0 < e.w) → 0 ≤ r → r < totalWeight pool →
      (findWeighted r pool).isSome = true) := by
  refine ⟨by norm_num [totalWeight, weightedPool], ?_⟩
  intro pool
  induction pool with
  | nil =>
    intro r _ h0 hlt
    simp [totalWeight] at hlt
    exact absurd (lt_of_le_of_lt h0 hlt) (lt_irrefl 0)
  | cons e rest ih =>
    intro r hpos h0 hlt
    by_cases hneg : r - e.w < 0
    · simp [findWeighted, hneg]
    · have h0r : 0 ≤ r - e.w := le_of_not_lt hneg
      have hlt2 : r - e.w < totalWeight rest := by
        have : totalWeight (e :: rest) = e.w + totalWeight rest := by
          simp [totalWeight]
        linarith [hlt, this]
      have hmem : ∀ x ∈ rest, 0 < x.w :=
        fun x hx => hpos x (List.mem_cons_of_mem e hx)
      simp only [findWeighted, if_neg hneg]
      exact ih (r - e.w) hmem h0r hlt2

/-- Witness for `weighted_selection_total`: the concrete pool with the
draw `r = 50` selects an entry. -/
theorem weighted_selection_total_witness :
    (findWeighted 50 weightedPool).isSome = true :=
  weighted_selection_total.2 weightedPool 50 (by norm_num [weightedPool]) (by norm_num)
    (by rw [weighted_selection_total.1]; norm_num)

/-- C8: pattern lookup never propagates a miss: for every key the
lookup returns a member of the catalog, a key absent from the catalog
falls back to the first catalog entry (the neutral FOCUSED pattern),
and the full weighted selection always returns a valid catalog
entry. -/
theorem lookup_miss_recovered :
    (∀ key, lookupPattern key ∈ defaultPatterns) ∧
    (∀ key, (∀ p ∈ defaultPatterns, p.key ≠ key) →
      lookupPattern key = defaultPatterns.get ⟨0, by decide⟩) ∧
    (∀ r, pickPattern r ∈ defaultPatterns) := by
  have hmem : ∀ key, lookupPattern key ∈ defaultPatterns := by
    intro key
    unfold lookupPattern
    cases hf : defaultPatterns.find? (fun p => p.key == key) with
    | none => decide
    | some p =>
      simp only [hf, Option.getD_some]
      exact List.mem_of_find?_eq_some hf
  refine ⟨hmem, ?_, fun r => hmem _⟩
  intro key h
  unfold lookupPattern
  have hf : defaultPatterns.find? (fun p => p.key == key) = none := by
    rw [List.find?_eq_none]
    intro p hp
    simpa using h p hp
  simp [hf]

/-- Witness for `lookup_miss_recovered`: the absent key "NOPE" falls
back to the first catalog entry. -/
theorem lookup_miss_recovered_witness :
    lookupPattern "NOPE" = defaultPatterns.get ⟨0, by decide⟩ :=
  lookup_miss_recovered.2.1 "NOPE" (by decide)

/-- Truncating the right operand of an append before truncating the
whole append changes nothing. -/
theorem take_append_take {α : Type} (A B : List α) (n : Nat) :
    (A ++ B.take n).take n = (A ++ B).take n := by
  rw [List.take_append_eq_append_take, List.take_append_eq_append_take, List.take_take]
  congr 2
  omega

/-- Closed form of a log run: starting from a log of at most 40
entries, running a chronological sequence of entries leaves the most
recent 40 in reverse chronological order. -/
theorem logRun_eq {α : Type} (es : List α) (L : List α) (h : L.length ≤ 40) :
    logRun L es = (es.reverse ++ L).take 40 := by
  induction es generalizing L with
  | nil =>
    simp only [logRun, List.reverse_nil, List.nil_append]
    exact (List.take_of_length_le h).symm
  | cons e rest ih =>
    have hlen : (logStep e L).length ≤ 40 := by
      simp [logStep]
    simp only [logRun]
    rw [ih (logStep e L) hlen]
    show (rest.reverse ++ (e :: L).take 40).take 40 = ((e :: rest).reverse ++ L).take 40
    rw [take_append_take, List.reverse_cons, List.append_assoc]
    rfl

/-- C6: every log update yields at most 40 entries; a run from the
empty log is exactly the reversed entry sequence truncated to its 40
most recent entries; once at least 40 ticks have happened the log has
exactly 40 entries; after 50 ticks the log is the 40 most recent
records in reverse chronological order. -/
theorem session_log_bounded :
    (∀ (e : LogEntry) (L : List LogEntry), (logStep e L).length ≤ 40) ∧
    (∀ es : List LogEntry, logRun [] es = es.reverse.take 40) ∧
    (∀ es : List LogEntry, 40 ≤ es.length → (logRun [] es).length = 40) ∧
    (logRun [] (List.range 50)).length = 40 ∧
    logRun [] (List.range 50) = (List.range 50).reverse.take 40 := by
  refine ⟨?_, ?_, ?_, by decide, by decide⟩
  · intro e L
    simp [logStep]
  · intro es
    rw [logRun_eq es [] (by simp)]
    simp
  · intro es h
    rw [logRun_eq es [] (by simp)]
    simp only [List.append_nil, List.length_take, List.length_reverse]
    omega

/-- Witness for `session_log_bounded`: 50 concrete entries leave
exactly 40 in the log. -/
theorem session_log_bounded_witness :
    (logRun [] ((List.range 50).map
      (fun i => LogEntry.mk "" "FOCUSED" i false 0))).length = 40 :=
  session_log_bounded.2.2.1
    ((List.range 50).map (fun i => LogEntry.mk "" "FOCUSED" i false 0))
    (by simp)

/-- C9: immediately after `reset()` both accumulators are zero and the
log is empty; the dwell budget is exhausted, so the next tick behaves
exactly as the very first tick of a session: it is the same function
of the random draws as a tick from the initial state, it force-picks a
pattern and it restarts seconds-in-pattern. -/
theorem reset_spec :
    reset.1.sessionSec = 0 ∧ reset.1.wastedSec = 0 ∧ reset.2 = [] ∧
    reset.1.dwellLeft ≤ 0 ∧
    (∀ r1 r2, streamTick reset.1 r1 r2 = streamTick initStreamState r1 r2) ∧
    (∀ r1 r2, (streamTick reset.1 r1 r2).pattern = pickPattern r1 ∧
      (streamTick reset.1 r1 r2).secondsInPattern = 1) := by
  refine ⟨rfl, rfl, rfl, by decide, fun r1 r2 => rfl, ?_⟩
  intro r1 r2
  constructor
  · simp [streamTick, reset, initStreamState]
  · simp [streamTick, reset, initStreamState]

/-- C10: while muted with reduced motion off, an escalation edge
produces no tone but still vibrates with the escalating duration
`25 + 10·idx`; vibration is gated only by the reduced-motion flag; and
for any event emitted by the escalation step, its haptic duration is
exactly what the muted emission still delivers. -/
theorem mute_gates_only_audio :
    (∀ idx, emitFeedback true false idx = (none, some (25 + idx * 10))) ∧
    (∀ muted r idx, (emitFeedback muted r idx).2 = vibrate r (25 + idx * 10)) ∧
    (∀ r idx, (emitFeedback true r idx).2 = (emitFeedback false r idx).2) ∧
    (∀ sever lastSever ev,
      (escalationStep false true true sever lastSever).2 = some ev →
      emitFeedback true false (ladderIdx sever) = (none, some ev.vibrateMs)) := by
  refine ⟨fun idx => rfl, fun muted r idx => rfl, fun r idx => rfl, ?_⟩
  intro sever lastSever ev h
  cases sever <;> cases lastSever <;>
    simp_all [escalationStep, emitFeedback, ping, vibrate, ladderIdx] <;>
    exact congrArg FeedbackEvent.vibrateMs h

/-- Witness for `mute_gates_only_audio`: the mild-to-warn edge while
muted produces no tone and a 35 ms vibration. -/
theorem mute_gates_only_audio_witness :
    emitFeedback true false (ladderIdx .warn) =
      (none, some (FeedbackEvent.mk 800 100 35).vibrateMs) :=
  mute_gates_only_audio.2.2.2 .warn .mild ⟨800, 100, 35⟩ (by decide)

end Wastemeter
